import Mathlib

/-!
Panthalassa: key lifecycle and profile store

A shallow embedding of `src/ethereum/utils.js`, `src/errors.js` and
`src/database/schemata.js`, followed by the properties proved about them.

JavaScript promises are modelled by their settlement state (the first call of
`res` or `rej` wins, later calls are ignored).  Collaborators that the source
receives as arguments (`crypto`, `isValidPrivateKey`, `ethjsUtils`, `aes`,
`secureStorage`) are arguments of the embedding as well, and every call made to
a collaborator that matters for the properties is recorded in a call log.  A
collaborator call may throw: it returns an `Except`, and an exception thrown
inside a promise executor rejects the promise with the thrown value.
-/

namespace Panthalassa

/-! ## errors.js -/

/-- Values a promise of this module can be rejected with, or that can be thrown.
The first three are the classes of `errors.js`, instantiated by this module with
`new`; `TypeError` is what the runtime throws on a property access on
`undefined`; `foreign e` is a value handed over by a collaborator (the `err` of a
callback, the reason of a rejected collaborator promise, a value it threw),
passed on as the very same value. -/
inductive JsError (ε : Type) where
  | InvalidPrivateKeyError
  | PasswordMismatch
  | UnsatisfiedSecureStorageImplementationError (missingMethodName : String)
  | TypeError
  | foreign (e : ε)
  deriving DecidableEq, Repr

/-- The `message` the constructors of `errors.js` pass to `Error`: only
`UnsatisfiedSecureStorageImplementationError` sets one. -/
def JsError.message {ε : Type} : JsError ε → String
  | .UnsatisfiedSecureStorageImplementationError missingMethodName =>
      "Missing method: \"" ++ missingMethodName ++ "\" in secure storage implementation"
  | _ => ""

/-! ## Promises -/

/-- Settlement state of a promise. -/
inductive PromiseState (ρ ε : Type) where
  | pending
  | resolved (value : ρ)
  | rejected (reason : JsError ε)
  deriving DecidableEq, Repr

/-- Calling `res(value)`: settles a pending promise, ignored otherwise. -/
def PromiseState.res {ρ ε : Type} (p : PromiseState ρ ε) (value : ρ) : PromiseState ρ ε :=
  match p with
  | .pending => .resolved value
  | settled => settled

/-- Calling `rej(reason)`: settles a pending promise, ignored otherwise. -/
def PromiseState.rej {ρ ε : Type} (p : PromiseState ρ ε) (reason : JsError ε) :
    PromiseState ρ ε :=
  match p with
  | .pending => .rejected reason
  | settled => settled

/-- Outcome of a promise returned by a collaborator. -/
inductive Settled (ρ ε : Type) where
  | resolves (result : ρ)
  | rejects (err : ε)
  deriving DecidableEq, Repr

/-- The chain `.then(result => res(result)).catch(err => rej(err))` applied to a
collaborator promise, acting on the promise `p` under construction. -/
def PromiseState.thenResCatchRej {ρ ε : Type} (p : PromiseState ρ ε) (q : Settled ρ ε) :
    PromiseState ρ ε :=
  match q with
  | .resolves result => p.res result
  | .rejects err => p.rej (.foreign err)

/-! ## Buffers and their hex encoding -/

/-- A Node `Buffer`: a sequence of bytes. -/
structure Buffer where
  bytes : List (Fin 256)
  deriving DecidableEq, Repr

/-- The sixteen digits `toString('hex')` writes. -/
def hexDigits : List Char :=
  ['0', '1', '2', '3', '4', '5', '6', '7', '8', '9', 'a', 'b', 'c', 'd', 'e', 'f']

/-- Digit for a value below sixteen. -/
def hexDigit (n : Nat) : Char := hexDigits.getD n '0'

/-- The two digits of one byte, high nibble first. -/
def byteToHex (b : Fin 256) : List Char := [hexDigit (b.val / 16), hexDigit (b.val % 16)]

/-- Embedding of `buf.toString('hex')`. -/
def Buffer.toStringHex (buf : Buffer) : String :=
  String.mk (buf.bytes.flatMap byteToHex)

/-- Value of a hex digit, either case; `none` for any other character. -/
def hexVal (c : Char) : Option Nat :=
  if '0'.toNat ≤ c.toNat ∧ c.toNat ≤ '9'.toNat then some (c.toNat - '0'.toNat)
  else if 'a'.toNat ≤ c.toNat ∧ c.toNat ≤ 'f'.toNat then some (c.toNat - 'a'.toNat + 10)
  else if 'A'.toNat ≤ c.toNat ∧ c.toNat ≤ 'F'.toNat then some (c.toNat - 'A'.toNat + 10)
  else none

/-- Decoding of hex characters two at a time; decoding stops at the first pair
that is not two hex digits, and a trailing single character is dropped. -/
def decodeHex : List Char → List (Fin 256)
  | hi :: lo :: rest =>
    match hexVal hi, hexVal lo with
    | some h, some l => Fin.ofNat (h * 16 + l) :: decodeHex rest
    | _, _ => []
  | _ => []

/-- Embedding of `Buffer.from(s, 'hex')`. -/
def Buffer.fromHex (s : String) : Buffer := ⟨decodeHex s.data⟩

/-- A character of `[0-9a-f]`. -/
def isLowerHexChar (c : Char) : Bool :=
  ('0'.toNat ≤ c.toNat && c.toNat ≤ '9'.toNat) || ('a'.toNat ≤ c.toNat && c.toNat ≤ 'f'.toNat)

/-! ## Optional string arguments -/

/-- A value of Flow type `?string`, the type of `pw` and `pwConfirm`. -/
inductive MaybeString where
  | undefined
  | null
  | string (s : String)
  deriving DecidableEq, Repr

/-- The `typeof` operator on a `?string`. -/
def MaybeString.typeof : MaybeString → String
  | .undefined => "undefined"
  | .null => "object"
  | .string _ => "string"

/-! ## ethereum/utils.js -/

/-- The constant `PRIVATE_ETH_KEY_PREFIX`. -/
def PRIVATE_ETH_KEY_PREFIX : String := "PRIVATE_ETH_KEY#"

/-- The arguments with which `crypto.randomBytes` invokes its callback:
`err` (`none` for null or undefined) and `privKey` (`none` for undefined). -/
structure RandomBytesResult (ε : Type) where
  err : Option ε
  privKey : Option Buffer

/-- The `crypto` collaborator: `randomBytes(size, callback)` invokes `callback`
once with the arguments it determines. -/
structure Crypto (ε : Type) where
  randomBytes : Nat → RandomBytesResult ε

/-- Collaborator calls made while generating a key. -/
inductive GenCall where
  | randomBytes (size : Nat)
  | isValidPrivateKey (key : Option Buffer)
  deriving DecidableEq, Repr

/-- Whether a logged call is a call of `crypto.randomBytes`. -/
def GenCall.isRandomBytes : GenCall → Bool
  | .randomBytes _ => true
  | _ => false

/-- What one run of the generator did. `thrown` is the exception, if any, that
escaped the callback passed to `crypto.randomBytes`; `promise` is the state the
calls of `res` and `rej` left the returned promise in. -/
structure GenRun (ε : Type) where
  promise : PromiseState String ε
  calls : List GenCall
  thrown : Option (JsError ε)

/-- Body of the callback passed to `crypto.randomBytes` (utils.js lines 26-38),
acting on the promise `p`. The validator is declared on buffers; called on
`undefined` or otherwise it may return a boolean or throw. -/
def createPrivateKeyCallback {ε : Type} (isValidPrivateKey : Option Buffer → Except ε Bool)
    (err : Option ε) (privKey : Option Buffer) (p : PromiseState String ε) : GenRun ε :=
  -- if(err){ rej(err); }
  let p1 := match err with
    | some e => p.rej (.foreign e)
    | none => p
  -- if(!isValidPrivateKey(privKey)){ rej(new errors.InvalidPrivateKeyError()); }
  match isValidPrivateKey privKey with
  | .error x => { promise := p1, calls := [.isValidPrivateKey privKey], thrown := some (.foreign x) }
  | .ok valid =>
    let p2 := if !valid then p1.rej .InvalidPrivateKeyError else p1
    -- res(privKey.toString('hex'));
    match privKey with
    | none => { promise := p2, calls := [.isValidPrivateKey privKey], thrown := some .TypeError }
    | some buf =>
      { promise := p2.res buf.toStringHex, calls := [.isValidPrivateKey privKey], thrown := none }

/-- Embedding of `createPrivateKey(crypto, isValidPrivateKey)()`. -/
def createPrivateKey {ε : Type} (crypto : Crypto ε)
    (isValidPrivateKey : Option Buffer → Except ε Bool) : GenRun ε :=
  let delivered := crypto.randomBytes 32
  let run := createPrivateKeyCallback isValidPrivateKey delivered.err delivered.privKey .pending
  { run with calls := .randomBytes 32 :: run.calls }

/-- The functions of `ethereumjs-util` that `savePrivateKey` uses. The three
called after the validity guard receive the whole key string, not the decoded
buffer the guard looked at, and may throw (`.error`). -/
structure EthjsUtils (ε : Type) where
  isValidPrivate : Buffer → Bool
  addHexPrefix : String → Except ε String
  privateToAddress : String → Except ε Buffer
  toChecksumAddress : String → Except ε String

/-- The cipher collaborator: `encrypt(message, password)` returns an envelope of
type `κ`, serialised by its `toString()`; either call may throw. -/
structure Aes (κ ε : Type) where
  encrypt : String → MaybeString → Except ε κ
  toString : κ → Except ε String

/-- The storage collaborator: `set(key, value)` returns a promise, or throws. -/
structure SecureStorage (ρ ε : Type) where
  set : String → String → Except ε (Settled ρ ε)

/-- Collaborator calls made while saving a key. -/
inductive SaveCall where
  | encrypt (message : String) (password : MaybeString)
  | set (key : String) (value : String)
  deriving DecidableEq, Repr

/-- What one run of `savePrivateKey` did. -/
structure SaveRun (ρ ε : Type) where
  promise : PromiseState ρ ε
  calls : List SaveCall

/-- Whether a logged call is a call of `secureStorage.set`. -/
def SaveCall.isSet : SaveCall → Bool
  | .set _ _ => true
  | _ => false

/-- The storage key of a logged call of `secureStorage.set`. -/
def SaveCall.setKey? : SaveCall → Option String
  | .set key _ => some key
  | _ => none

/-- Whether a logged call is a call of `aes.encrypt`. -/
def SaveCall.isEncrypt : SaveCall → Bool
  | .encrypt _ _ => true
  | _ => false

/-- The calls of `secureStorage.set` of a run, in order. -/
def SaveRun.setCalls {ρ ε : Type} (run : SaveRun ρ ε) : List SaveCall :=
  run.calls.filter SaveCall.isSet

/-- The storage keys a run passed to `secureStorage.set`, in order. -/
def SaveRun.setKeys {ρ ε : Type} (run : SaveRun ρ ε) : List String :=
  run.calls.filterMap SaveCall.setKey?

/-- The calls of `aes.encrypt` of a run, in order. -/
def SaveRun.encryptCalls {ρ ε : Type} (run : SaveRun ρ ε) : List SaveCall :=
  run.calls.filter SaveCall.isEncrypt

/-- Embedding of `savePrivateKey(secureStorage, ethjsUtils, aes)(privateKey, pw, pwConfirm)`
(utils.js lines 53-105). A call that leaves out `pw` and `pwConfirm` passes
`undefined` for them. The whole body runs inside the promise executor, so an
exception thrown by a collaborator ends the body and rejects the promise with
the thrown value; the calls made up to and including the throwing one stay in
the log. -/
def savePrivateKey {ρ ε κ : Type} (secureStorage : SecureStorage ρ ε)
    (ethjsUtils : EthjsUtils ε) (aes : Aes κ ε) (privateKey : String)
    (pw pwConfirm : MaybeString) : SaveRun ρ ε :=
  let p : PromiseState ρ ε := .pending
  if !ethjsUtils.isValidPrivate (Buffer.fromHex privateKey) then
    { promise := p.rej .InvalidPrivateKeyError, calls := [] }
  else
    -- privateKey = ethjsUtils.addHexPrefix(privateKey);
    match ethjsUtils.addHexPrefix privateKey with
    | .error thrown => { promise := p.rej (.foreign thrown), calls := [] }
    | .ok privateKey =>
    -- ethjsUtils.toChecksumAddress(ethjsUtils.privateToAddress(privateKey).toString('hex'))
    match ethjsUtils.privateToAddress privateKey with
    | .error thrown => { promise := p.rej (.foreign thrown), calls := [] }
    | .ok address =>
    match ethjsUtils.toChecksumAddress address.toStringHex with
    | .error thrown => { promise := p.rej (.foreign thrown), calls := [] }
    | .ok addressOfPrivateKey =>
    if "undefined" ≠ pw.typeof ∨ "undefined" ≠ pwConfirm.typeof then
      if pw ≠ pwConfirm then
        { promise := p.rej .PasswordMismatch, calls := [] }
      else
        let key := PRIVATE_ETH_KEY_PREFIX ++ addressOfPrivateKey
        -- aes.encrypt(privateKey, pw).toString()
        match aes.encrypt privateKey pw with
        | .error thrown =>
          { promise := p.rej (.foreign thrown), calls := [.encrypt privateKey pw] }
        | .ok envelope =>
        match aes.toString envelope with
        | .error thrown =>
          { promise := p.rej (.foreign thrown), calls := [.encrypt privateKey pw] }
        | .ok value =>
        match secureStorage.set key value with
        | .error thrown =>
          { promise := p.rej (.foreign thrown),
            calls := [.encrypt privateKey pw, .set key value] }
        | .ok stored =>
          { promise := p.thenResCatchRej stored,
            calls := [.encrypt privateKey pw, .set key value] }
    else
      let key := PRIVATE_ETH_KEY_PREFIX ++ addressOfPrivateKey
      match secureStorage.set key privateKey with
      | .error thrown => { promise := p.rej (.foreign thrown), calls := [.set key privateKey] }
      | .ok stored => { promise := p.thenResCatchRej stored, calls := [.set key privateKey] }

/-! ## database/schemata.js -/

/-- Property types a schema can declare. -/
inductive PropertyType where
  | int
  | string
  deriving DecidableEq, Repr

/-- An object schema: `name`, `primaryKey` and the declared `properties`. -/
structure ObjectSchema where
  name : String
  primaryKey : String
  properties : List (String × PropertyType)
  deriving DecidableEq, Repr

/-- The constant `ProfileSchema` of `database/schemata.js`. -/
def ProfileSchema : ObjectSchema :=
  { name := "Profile"
    primaryKey := "id"
    properties :=
      [("id", .int), ("pseudo", .string), ("description", .string), ("image", .string)] }

/-- A property value of a stored object. -/
inductive JsValue where
  | int (n : Int)
  | string (s : String)
  deriving DecidableEq, Repr

/-- The schema type of a value. -/
def JsValue.type : JsValue → PropertyType
  | .int _ => .int
  | .string _ => .string

/-- An object as its properties. -/
abbrev JsObject := List (String × JsValue)

/-- An object has the shape a schema declares: every declared property is
present with the declared type, no other property is, and the primary key is
among them. -/
def ObjectSchema.hasShape (schema : ObjectSchema) (obj : JsObject) : Bool :=
  schema.properties.all (fun d => (obj.lookup d.1).map JsValue.type == some d.2)
    && obj.all (fun kv => (schema.properties.lookup kv.1).isSome)
    && (obj.lookup schema.primaryKey).isSome

/-! ## The profile store

`profile/profile.js` and `database/db.js` are not among the sources; only the
test `profile/profile.test.js` and the schema are. -/

/-- Modelled from the spec: a row of the Profile table (`profile/profile.js` and
`database/db.js` are missing), with the fields of section 3 of the spec:
`id`, `pseudo`, `description`, `image`. -/
structure Profile where
  pseudo : String
  description : String
  image : String
  id : Int
  deriving DecidableEq, Repr

/-- Modelled from the spec: the Profile table behind the missing
`database/db.js`, as its rows. -/
structure ProfileDb where
  rows : List Profile
  deriving DecidableEq, Repr

/-- Modelled from the spec: the error of the missing `getProfile` when no row
is present (`errors.NoProfilePresent` in the test). -/
inductive ProfileError where
  | NoProfilePresent
  deriving DecidableEq, Repr

/-- Modelled from the spec: the store the test obtains right after
`npm run db:flush`, holding no row. -/
def ProfileDb.empty : ProfileDb := ⟨[]⟩

/-- Modelled from the spec: `setProfile` of the missing `profile/profile.js`,
section 4.5: if a row exists, update its fields in place; otherwise insert a new
row. The first row gets the id 1, the id the test `create profile` expects. -/
def setProfile (db : ProfileDb) (pseudo description image : String) : ProfileDb :=
  match db.rows with
  | [] => ⟨[{ pseudo := pseudo, description := description, image := image, id := 1 }]⟩
  | row :: rest =>
    ⟨{ row with pseudo := pseudo, description := description, image := image } :: rest⟩

/-- Modelled from the spec: `getProfile` of the missing `profile/profile.js`,
section 4.5: the full row if present, a distinct not-present error if the store
is empty. -/
def getProfile (db : ProfileDb) : Except ProfileError Profile :=
  match db.rows with
  | [] => .error .NoProfilePresent
  | row :: _ => .ok row

/-- The object the test builds from the resolved profile (test lines 34-39). -/
def Profile.toObject (profile : Profile) : JsObject :=
  [("pseudo", .string profile.pseudo), ("description", .string profile.description),
   ("image", .string profile.image), ("id", .int profile.id)]

/-! ## Test doubles

Concrete collaborators on which the properties below are exercised. -/

/-- A stand-in for `ethereumjs-util`: a key is accepted when it has 32 bytes, not
all of them zero. Like the library, `privateToAddress` throws on a string that
is not `0x` followed by exactly 64 hex digits; the address is the trailing 20
bytes of the key. -/
def stubEthjsUtils : EthjsUtils String :=
  { isValidPrivate := fun buf => buf.bytes.length == 32 && buf.bytes.any (fun b => b.val != 0)
    addHexPrefix := fun s => .ok ("0x" ++ s)
    privateToAddress := fun s =>
      if s.data.length == 66 && (decodeHex (s.data.drop 2)).length == 32 then
        .ok ⟨(decodeHex (s.data.drop 2)).drop 12⟩
      else .error "RangeError: private key length is invalid"
    toChecksumAddress := fun s => .ok ("0x" ++ s) }

/-- A stand-in cipher: the envelope is the message reversed, whatever the
password string; a password that is not a string makes it throw. -/
def stubAes : Aes String String :=
  { encrypt := fun message password =>
      match password with
      | .string _ => .ok (String.mk message.data.reverse)
      | _ => .error "TypeError: password is not a string"
    toString := fun envelope => .ok envelope }

/-- The inverse of `stubAes`. -/
def stubDecrypt (envelope : String) (_password : MaybeString) : String :=
  String.mk envelope.data.reverse

/-- A storage that acknowledges every write with the number of characters
written. -/
def okStorage : SecureStorage Nat String :=
  { set := fun _ value => .ok (.resolves value.length) }

/-- A storage that fails every write. -/
def failingStorage : SecureStorage Nat String :=
  { set := fun _ _ => .ok (.rejects "storage unavailable") }

/-- A key string the validity guard lets through although it is malformed: the
64 digits of `sampleKeyHex` followed by `zz`. -/
def malformedKeyHex : String := String.mk (List.replicate 63 '0' ++ ['1', 'z', 'z'])

/-- A 32-byte key: thirty-one zero bytes and a one. -/
def sampleKeyHex : String := String.mk (List.replicate 63 '0' ++ ['1'])

/-- The key `sampleKeyHex` with its hex prefix. -/
def samplePrefixedKey : String := "0x" ++ sampleKeyHex

/-- The address `stubEthjsUtils` derives from `sampleKeyHex`. -/
def sampleAddress : Buffer := ⟨List.replicate 19 0 ++ [1]⟩

/-- The checksummed address `stubEthjsUtils` derives from `sampleKeyHex`. -/
def sampleChecksummed : String := "0x0000000000000000000000000000000000000001"

/-- The envelope `stubAes` makes of `samplePrefixedKey`, also its serialised
form. -/
def sampleEnvelope : String :=
  "1000000000000000000000000000000000000000000000000000000000000000x0"

/-- The bytes of `sampleKeyHex`. -/
def sampleKey : Buffer := ⟨List.replicate 31 0 ++ [1]⟩

/-- The all-zero 32-byte buffer. -/
def zeroKey : Buffer := ⟨List.replicate 32 0⟩

/-- A stand-in validator: accepts buffers of 32 bytes that are not all zero. -/
def stubIsValidPrivateKey (key : Option Buffer) : Except String Bool :=
  match key with
  | some buf => .ok (stubEthjsUtils.isValidPrivate buf)
  | none => .error "private key should be a Buffer"

/-- An entropy source that delivers the given buffer without error. -/
def cryptoDelivering (buf : Buffer) : Crypto String :=
  { randomBytes := fun _ => { err := none, privKey := some buf } }

/-- An entropy source that fails with the given error and delivers no buffer. -/
def cryptoFailing {ε : Type} (e : ε) : Crypto ε :=
  { randomBytes := fun _ => { err := some e, privKey := none } }

end Panthalassa

namespace Panthalassa

/-! ## Auxiliary lemmas -/

theorem hexDigit_isLowerHexChar (n : Nat) (h : n < 16) : isLowerHexChar (hexDigit n) = true := by
  interval_cases n <;> decide

theorem hexVal_hexDigit (n : Nat) (h : n < 16) : hexVal (hexDigit n) = some n := by
  interval_cases n <;> decide

theorem length_flatMap_byteToHex (bs : List (Fin 256)) :
    (bs.flatMap byteToHex).length = 2 * bs.length := by
  induction bs with
  | nil => rfl
  | cons b rest ih =>
    simp only [List.flatMap_cons, List.length_append, List.length_cons, ih, byteToHex,
      List.length_nil]
    omega

theorem isLowerHexChar_of_mem_flatMap (bs : List (Fin 256)) (c : Char)
    (hc : c ∈ bs.flatMap byteToHex) : isLowerHexChar c = true := by
  rw [List.mem_flatMap] at hc
  obtain ⟨b, _, hb⟩ := hc
  have hlt := b.isLt
  simp only [byteToHex, List.mem_cons, List.mem_singleton, List.not_mem_nil, or_false] at hb
  rcases hb with rfl | rfl
  · exact hexDigit_isLowerHexChar _ (by omega)
  · exact hexDigit_isLowerHexChar _ (by omega)

theorem decodeHex_flatMap_byteToHex (bs : List (Fin 256)) :
    decodeHex (bs.flatMap byteToHex) = bs := by
  induction bs with
  | nil => rfl
  | cons b rest ih =>
    have hlt := b.isLt
    have hhi : hexVal (hexDigit (b.val / 16)) = some (b.val / 16) :=
      hexVal_hexDigit _ (by omega)
    have hlo : hexVal (hexDigit (b.val % 16)) = some (b.val % 16) :=
      hexVal_hexDigit _ (by omega)
    have hcons : (b :: rest).flatMap byteToHex
        = hexDigit (b.val / 16) :: hexDigit (b.val % 16) :: rest.flatMap byteToHex := rfl
    rw [hcons]
    simp only [decodeHex, hhi, hlo, ih, List.cons.injEq, and_true]
    apply Fin.ext
    simp only [Fin.ofNat, Fin.val_mk]
    omega

theorem take_two_ne_0x (cs : List Char) (h : ∀ c ∈ cs, isLowerHexChar c = true) :
    cs.take 2 ≠ ['0', 'x'] := by
  intro h2
  have hx : 'x' ∈ cs := by
    have : 'x' ∈ cs.take 2 := by rw [h2]; simp
    exact List.mem_of_mem_take this
  have := h _ hx
  revert this
  decide

/-! ## savePrivateKey -/

/-! ### Shape of a run -/

theorem thenResCatchRej_pending_ne_mismatch {ρ ε : Type} (q : Settled ρ ε) :
    (PromiseState.pending : PromiseState ρ ε).thenResCatchRej q
      ≠ .rejected .PasswordMismatch := by
  cases q <;> simp [PromiseState.rej, PromiseState.res, PromiseState.thenResCatchRej]

theorem savePrivateKey_promise_ne_mismatch {ρ ε κ : Type} (secureStorage : SecureStorage ρ ε)
    (ethjsUtils : EthjsUtils ε) (aes : Aes κ ε) (privateKey : String) (pw : MaybeString) :
    (savePrivateKey secureStorage ethjsUtils aes privateKey pw pw).promise
      ≠ .rejected .PasswordMismatch := by
  unfold savePrivateKey
  simp only [ne_eq, not_true_eq_false, if_false]
  repeat' split
  all_goals first
    | exact thenResCatchRej_pending_ne_mismatch _
    | simp [PromiseState.rej]

theorem savePrivateKey_mismatch_run {ρ ε κ : Type} (secureStorage : SecureStorage ρ ε)
    (ethjsUtils : EthjsUtils ε) (aes : Aes κ ε) (privateKey : String)
    (pw pwConfirm : MaybeString) (prefixed : String) (address : Buffer) (checksummed : String)
    (hvalid : ethjsUtils.isValidPrivate (Buffer.fromHex privateKey) = true)
    (hprefixed : ethjsUtils.addHexPrefix privateKey = .ok prefixed)
    (haddress : ethjsUtils.privateToAddress prefixed = .ok address)
    (hchecksummed : ethjsUtils.toChecksumAddress address.toStringHex = .ok checksummed)
    (hne : pw ≠ pwConfirm) :
    savePrivateKey secureStorage ethjsUtils aes privateKey pw pwConfirm
      = { promise := .rejected .PasswordMismatch, calls := [] } := by
  have hcond : "undefined" ≠ pw.typeof ∨ "undefined" ≠ pwConfirm.typeof := by
    cases pw <;> cases pwConfirm <;> simp [MaybeString.typeof] at hne ⊢
  simp [savePrivateKey, hvalid, hprefixed, haddress, hchecksummed, hcond, hne, PromiseState.rej]

theorem savePrivateKey_plain_run {ρ ε κ : Type} (secureStorage : SecureStorage ρ ε)
    (ethjsUtils : EthjsUtils ε) (aes : Aes κ ε) (privateKey : String)
    (prefixed : String) (address : Buffer) (checksummed : String)
    (hvalid : ethjsUtils.isValidPrivate (Buffer.fromHex privateKey) = true)
    (hprefixed : ethjsUtils.addHexPrefix privateKey = .ok prefixed)
    (haddress : ethjsUtils.privateToAddress prefixed = .ok address)
    (hchecksummed : ethjsUtils.toChecksumAddress address.toStringHex = .ok checksummed) :
    (savePrivateKey secureStorage ethjsUtils aes privateKey .undefined .undefined).calls
      = [.set (PRIVATE_ETH_KEY_PREFIX ++ checksummed) prefixed] := by
  simp only [savePrivateKey, hvalid, hprefixed, haddress, hchecksummed, MaybeString.typeof]
  cases secureStorage.set (PRIVATE_ETH_KEY_PREFIX ++ checksummed) prefixed <;> simp

theorem savePrivateKey_encrypting_run {ρ ε κ : Type} (secureStorage : SecureStorage ρ ε)
    (ethjsUtils : EthjsUtils ε) (aes : Aes κ ε) (privateKey : String) (pw : MaybeString)
    (prefixed : String) (address : Buffer) (checksummed : String) (envelope : κ)
    (value : String)
    (hvalid : ethjsUtils.isValidPrivate (Buffer.fromHex privateKey) = true)
    (hprefixed : ethjsUtils.addHexPrefix privateKey = .ok prefixed)
    (haddress : ethjsUtils.privateToAddress prefixed = .ok address)
    (hchecksummed : ethjsUtils.toChecksumAddress address.toStringHex = .ok checksummed)
    (hpw : pw ≠ .undefined)
    (hencrypt : aes.encrypt prefixed pw = .ok envelope)
    (htoString : aes.toString envelope = .ok value) :
    (savePrivateKey secureStorage ethjsUtils aes privateKey pw pw).calls
      = [.encrypt prefixed pw, .set (PRIVATE_ETH_KEY_PREFIX ++ checksummed) value] := by
  have hcond : "undefined" ≠ pw.typeof := by
    cases pw <;> simp [MaybeString.typeof] at hpw ⊢
  simp only [savePrivateKey, hvalid, hprefixed, haddress, hchecksummed, hcond, hencrypt,
    htoString]
  cases secureStorage.set (PRIVATE_ETH_KEY_PREFIX ++ checksummed) value <;> simp [hcond]

theorem savePrivateKey_set_outcome {ρ ε κ : Type} (secureStorage : SecureStorage ρ ε)
    (ethjsUtils : EthjsUtils ε) (aes : Aes κ ε) (privateKey : String)
    (pw pwConfirm : MaybeString) (key value : String) (outcome : Settled ρ ε)
    (hcall : SaveCall.set key value
      ∈ (savePrivateKey secureStorage ethjsUtils aes privateKey pw pwConfirm).calls)
    (houtcome : secureStorage.set key value = .ok outcome) :
    (savePrivateKey secureStorage ethjsUtils aes privateKey pw pwConfirm).promise
      = PromiseState.pending.thenResCatchRej outcome := by
  unfold savePrivateKey at hcall ⊢
  simp only at hcall ⊢
  repeat' split
  all_goals simp_all

/-! ## savePrivateKey -/

/-- C1: if `ethjsUtils.isValidPrivate(Buffer.from(privateKey, 'hex'))` is false,
the promise returned by `savePrivateKey` rejects with an `InvalidPrivateKeyError`
and `secureStorage.set` is called zero times, whatever `pw` and `pwConfirm`. -/
theorem savePrivateKey_invalid_key_rejects {ρ ε κ : Type} (secureStorage : SecureStorage ρ ε)
    (ethjsUtils : EthjsUtils ε) (aes : Aes κ ε) (privateKey : String)
    (pw pwConfirm : MaybeString)
    (hinvalid : ethjsUtils.isValidPrivate (Buffer.fromHex privateKey) = false) :
    (savePrivateKey secureStorage ethjsUtils aes privateKey pw pwConfirm).promise
        = .rejected .InvalidPrivateKeyError
      ∧ (savePrivateKey secureStorage ethjsUtils aes privateKey pw pwConfirm).setCalls.length
        = 0 := by
  simp [savePrivateKey, hinvalid, PromiseState.rej, SaveRun.setCalls]

theorem savePrivateKey_invalid_key_rejects_witness :
    stubEthjsUtils.isValidPrivate (Buffer.fromHex "00") = false
      ∧ (savePrivateKey okStorage stubEthjsUtils stubAes "00" (.string "pw")
          (.string "pw")).promise = .rejected .InvalidPrivateKeyError
      ∧ (savePrivateKey okStorage stubEthjsUtils stubAes "00" (.string "pw")
          (.string "pw")).setCalls.length = 0 :=
  ⟨by decide,
    savePrivateKey_invalid_key_rejects okStorage stubEthjsUtils stubAes "00" (.string "pw")
      (.string "pw") (by decide)⟩

/-- C2: for a valid private key (the guard accepts it and the address
derivation `addHexPrefix`, `privateToAddress`, `toChecksumAddress` returns on
it) and `pw`, `pwConfirm` each undefined or a string, `savePrivateKey` rejects
with `PasswordMismatch` if and only if exactly one of the two is provided or
both are provided and unequal; and whenever it rejects with `PasswordMismatch`,
`secureStorage.set` is called zero times. -/
theorem savePrivateKey_password_mismatch_iff {ρ ε κ : Type} (secureStorage : SecureStorage ρ ε)
    (ethjsUtils : EthjsUtils ε) (aes : Aes κ ε) (privateKey : String)
    (pw pwConfirm : MaybeString) (prefixed : String) (address : Buffer) (checksummed : String)
    (hvalid : ethjsUtils.isValidPrivate (Buffer.fromHex privateKey) = true)
    (hprefixed : ethjsUtils.addHexPrefix privateKey = .ok prefixed)
    (haddress : ethjsUtils.privateToAddress prefixed = .ok address)
    (hchecksummed : ethjsUtils.toChecksumAddress address.toStringHex = .ok checksummed)
    (hpw : pw ≠ .null) (hpwConfirm : pwConfirm ≠ .null) :
    ((savePrivateKey secureStorage ethjsUtils aes privateKey pw pwConfirm).promise
          = .rejected .PasswordMismatch
        ↔ ((pw ≠ .undefined ∧ pwConfirm = .undefined)
            ∨ (pw = .undefined ∧ pwConfirm ≠ .undefined)
            ∨ (pw ≠ .undefined ∧ pwConfirm ≠ .undefined ∧ pw ≠ pwConfirm)))
      ∧ ((savePrivateKey secureStorage ethjsUtils aes privateKey pw pwConfirm).promise
          = .rejected .PasswordMismatch
        → (savePrivateKey secureStorage ethjsUtils aes privateKey pw pwConfirm).setCalls.length
          = 0) := by
  have hiff : pw ≠ pwConfirm
      ↔ ((pw ≠ .undefined ∧ pwConfirm = .undefined)
          ∨ (pw = .undefined ∧ pwConfirm ≠ .undefined)
          ∨ (pw ≠ .undefined ∧ pwConfirm ≠ .undefined ∧ pw ≠ pwConfirm)) := by
    cases pw <;> cases pwConfirm <;> simp at hpw hpwConfirm ⊢
  by_cases heq : pw = pwConfirm
  · subst heq
    have hne := savePrivateKey_promise_ne_mismatch secureStorage ethjsUtils aes privateKey pw
    refine ⟨⟨fun h => absurd h hne, fun h => absurd rfl (hiff.mpr h)⟩, fun h => absurd h hne⟩
  · rw [savePrivateKey_mismatch_run secureStorage ethjsUtils aes privateKey pw pwConfirm
      prefixed address checksummed hvalid hprefixed haddress hchecksummed heq]
    exact ⟨⟨fun _ => hiff.mp heq, fun _ => rfl⟩, fun _ => rfl⟩

theorem savePrivateKey_password_mismatch_iff_witness :
    (stubEthjsUtils.isValidPrivate (Buffer.fromHex sampleKeyHex) = true
      ∧ stubEthjsUtils.addHexPrefix sampleKeyHex = .ok samplePrefixedKey
      ∧ stubEthjsUtils.privateToAddress samplePrefixedKey = .ok sampleAddress
      ∧ stubEthjsUtils.toChecksumAddress sampleAddress.toStringHex = .ok sampleChecksummed
      ∧ MaybeString.string "a" ≠ .null ∧ MaybeString.string "b" ≠ .null
      ∧ MaybeString.string "" ≠ .null ∧ MaybeString.undefined ≠ .null)
      ∧ ((savePrivateKey okStorage stubEthjsUtils stubAes sampleKeyHex (.string "a")
            (.string "b")).promise = .rejected .PasswordMismatch
        ∧ (savePrivateKey okStorage stubEthjsUtils stubAes sampleKeyHex (.string "a")
            (.string "b")).setCalls.length = 0)
      ∧ ((savePrivateKey okStorage stubEthjsUtils stubAes sampleKeyHex (.string "")
            .undefined).promise = .rejected .PasswordMismatch
        ∧ (savePrivateKey okStorage stubEthjsUtils stubAes sampleKeyHex (.string "")
            .undefined).setCalls.length = 0) :=
  have hab := savePrivateKey_password_mismatch_iff okStorage stubEthjsUtils stubAes sampleKeyHex
    (.string "a") (.string "b") samplePrefixedKey sampleAddress sampleChecksummed
    (by decide) rfl rfl rfl (by decide) (by decide)
  have hempty := savePrivateKey_password_mismatch_iff okStorage stubEthjsUtils stubAes
    sampleKeyHex (.string "") .undefined samplePrefixedKey sampleAddress sampleChecksummed
    (by decide) rfl rfl rfl (by decide) (by decide)
  have rab := hab.1.mpr (Or.inr (Or.inr ⟨by decide, by decide, by decide⟩))
  have rempty := hempty.1.mpr (Or.inl ⟨by decide, rfl⟩)
  ⟨⟨by decide, rfl, rfl, rfl, by decide, by decide, by decide, by decide⟩, ⟨rab, hab.2 rab⟩,
    ⟨rempty, hempty.2 rempty⟩⟩

/-- C3: for a valid private key `k` (the guard accepts it and the address
derivation returns on it) saved with neither `pw` nor `pwConfirm`,
`savePrivateKey` calls `secureStorage.set` exactly once, with key
`PRIVATE_ETH_KEY#` followed by
`toChecksumAddress(privateToAddress(addHexPrefix(k)).toString('hex'))` and value
`addHexPrefix(k)`, and `aes.encrypt` is never called. -/
theorem savePrivateKey_no_password_stores_plain {ρ ε κ : Type}
    (secureStorage : SecureStorage ρ ε) (ethjsUtils : EthjsUtils ε) (aes : Aes κ ε)
    (k prefixed : String) (address : Buffer) (checksummed : String)
    (hvalid : ethjsUtils.isValidPrivate (Buffer.fromHex k) = true)
    (hprefixed : ethjsUtils.addHexPrefix k = .ok prefixed)
    (haddress : ethjsUtils.privateToAddress prefixed = .ok address)
    (hchecksummed : ethjsUtils.toChecksumAddress address.toStringHex = .ok checksummed) :
    (savePrivateKey secureStorage ethjsUtils aes k .undefined .undefined).setCalls
        = [.set ("PRIVATE_ETH_KEY#" ++ checksummed) prefixed]
      ∧ (savePrivateKey secureStorage ethjsUtils aes k .undefined .undefined).encryptCalls.length
        = 0 := by
  have hcalls := savePrivateKey_plain_run secureStorage ethjsUtils aes k prefixed address
    checksummed hvalid hprefixed haddress hchecksummed
  simp [SaveRun.setCalls, SaveRun.encryptCalls, hcalls, SaveCall.isSet, SaveCall.isEncrypt,
    PRIVATE_ETH_KEY_PREFIX]

theorem savePrivateKey_no_password_stores_plain_witness :
    (stubEthjsUtils.isValidPrivate (Buffer.fromHex sampleKeyHex) = true
      ∧ stubEthjsUtils.addHexPrefix sampleKeyHex = .ok samplePrefixedKey
      ∧ stubEthjsUtils.privateToAddress samplePrefixedKey = .ok sampleAddress
      ∧ stubEthjsUtils.toChecksumAddress sampleAddress.toStringHex = .ok sampleChecksummed)
      ∧ (savePrivateKey okStorage stubEthjsUtils stubAes sampleKeyHex .undefined
          .undefined).setCalls
        = [.set ("PRIVATE_ETH_KEY#" ++ "0x0000000000000000000000000000000000000001")
            "0x0000000000000000000000000000000000000000000000000000000000000001"]
      ∧ (savePrivateKey okStorage stubEthjsUtils stubAes sampleKeyHex .undefined
          .undefined).encryptCalls.length = 0 :=
  ⟨⟨by decide, rfl, rfl, rfl⟩,
    savePrivateKey_no_password_stores_plain okStorage stubEthjsUtils stubAes sampleKeyHex
      samplePrefixedKey sampleAddress sampleChecksummed (by decide) rfl rfl rfl⟩

/-- C4: for a valid private key `k` (the guard accepts it and the address
derivation returns on it) and every string `pw`, the empty string included, on
which `aes.encrypt(addHexPrefix(k), pw).toString()` returns, `savePrivateKey(k,
pw, pw)` takes the encrypting path: it calls `aes.encrypt(addHexPrefix(k), pw)`,
calls `secureStorage.set` exactly once, and the stored value is the serialised
envelope; for a cipher whose `decrypt` inverts `encrypt` under the same
password, decrypting the stored value with `pw` yields `addHexPrefix(k)`. -/
theorem savePrivateKey_equal_passwords_encrypts {ρ ε κ : Type}
    (secureStorage : SecureStorage ρ ε) (ethjsUtils : EthjsUtils ε) (aes : Aes κ ε)
    (k pw prefixed : String) (address : Buffer) (checksummed : String) (envelope : κ)
    (value : String) (decrypt : String → MaybeString → String)
    (hvalid : ethjsUtils.isValidPrivate (Buffer.fromHex k) = true)
    (hprefixed : ethjsUtils.addHexPrefix k = .ok prefixed)
    (haddress : ethjsUtils.privateToAddress prefixed = .ok address)
    (hchecksummed : ethjsUtils.toChecksumAddress address.toStringHex = .ok checksummed)
    (hencrypt : aes.encrypt prefixed (.string pw) = .ok envelope)
    (htoString : aes.toString envelope = .ok value)
    (hdecrypt : ∀ message password sealed serialised,
      aes.encrypt message password = .ok sealed → aes.toString sealed = .ok serialised
        → decrypt serialised password = message) :
    (savePrivateKey secureStorage ethjsUtils aes k (.string pw) (.string pw)).encryptCalls
        = [.encrypt prefixed (.string pw)]
      ∧ (savePrivateKey secureStorage ethjsUtils aes k (.string pw) (.string pw)).setCalls
        = [.set ("PRIVATE_ETH_KEY#" ++ checksummed) value]
      ∧ ∀ key stored,
          SaveCall.set key stored
              ∈ (savePrivateKey secureStorage ethjsUtils aes k (.string pw) (.string pw)).calls
            → decrypt stored (.string pw) = prefixed := by
  have hcalls := savePrivateKey_encrypting_run secureStorage ethjsUtils aes k (.string pw)
    prefixed address checksummed envelope value hvalid hprefixed haddress hchecksummed
    (by simp) hencrypt htoString
  refine ⟨?_, ?_, ?_⟩
  · simp [SaveRun.encryptCalls, hcalls, SaveCall.isEncrypt]
  · simp [SaveRun.setCalls, hcalls, SaveCall.isSet, PRIVATE_ETH_KEY_PREFIX]
  · intro key stored hmem
    rw [hcalls] at hmem
    simp at hmem
    rw [hmem.2]
    exact hdecrypt _ _ _ _ hencrypt htoString

theorem stubDecrypt_inverts (message : String) (password : MaybeString) (sealed : String)
    (serialised : String) (hencrypt : stubAes.encrypt message password = .ok sealed)
    (htoString : stubAes.toString sealed = .ok serialised) :
    stubDecrypt serialised password = message := by
  cases password <;> simp [stubAes] at hencrypt htoString
  subst hencrypt
  subst htoString
  simp [stubDecrypt]

theorem savePrivateKey_equal_passwords_encrypts_witness :
    (stubEthjsUtils.isValidPrivate (Buffer.fromHex sampleKeyHex) = true
      ∧ stubEthjsUtils.addHexPrefix sampleKeyHex = .ok samplePrefixedKey
      ∧ stubEthjsUtils.privateToAddress samplePrefixedKey = .ok sampleAddress
      ∧ stubEthjsUtils.toChecksumAddress sampleAddress.toStringHex = .ok sampleChecksummed
      ∧ stubAes.encrypt samplePrefixedKey (.string "") = .ok sampleEnvelope
      ∧ stubAes.toString sampleEnvelope = .ok sampleEnvelope)
      ∧ (savePrivateKey okStorage stubEthjsUtils stubAes sampleKeyHex (.string "")
          (.string "")).setCalls
        = [.set ("PRIVATE_ETH_KEY#" ++ "0x0000000000000000000000000000000000000001")
            "1000000000000000000000000000000000000000000000000000000000000000x0"]
      ∧ stubDecrypt "1000000000000000000000000000000000000000000000000000000000000000x0"
          (.string "")
        = "0x0000000000000000000000000000000000000000000000000000000000000001" :=
  have h := savePrivateKey_equal_passwords_encrypts okStorage stubEthjsUtils stubAes sampleKeyHex
    "" samplePrefixedKey sampleAddress sampleChecksummed sampleEnvelope sampleEnvelope
    stubDecrypt (by decide) rfl rfl rfl rfl rfl stubDecrypt_inverts
  ⟨⟨by decide, rfl, rfl, rfl, rfl, rfl⟩, h.2.1,
    h.2.2 "PRIVATE_ETH_KEY#0x0000000000000000000000000000000000000001" _ (by decide)⟩

/-- C5: for a valid private key `k` (the guard accepts it and the address
derivation returns on it) and every string `pw` on which the encryption
returns, the storage key passed to `secureStorage.set` by `savePrivateKey(k)`
equals the one passed by `savePrivateKey(k, pw, pw)`: in both cases the single
key is `PRIVATE_ETH_KEY#` followed by the checksummed address derived from the
unencrypted normalized key, an expression in which `pw` does not occur. -/
theorem savePrivateKey_storage_key_independent_of_password {ρ ε κ : Type}
    (secureStorage : SecureStorage ρ ε) (ethjsUtils : EthjsUtils ε) (aes : Aes κ ε)
    (k pw prefixed : String) (address : Buffer) (checksummed : String) (envelope : κ)
    (value : String)
    (hvalid : ethjsUtils.isValidPrivate (Buffer.fromHex k) = true)
    (hprefixed : ethjsUtils.addHexPrefix k = .ok prefixed)
    (haddress : ethjsUtils.privateToAddress prefixed = .ok address)
    (hchecksummed : ethjsUtils.toChecksumAddress address.toStringHex = .ok checksummed)
    (hencrypt : aes.encrypt prefixed (.string pw) = .ok envelope)
    (htoString : aes.toString envelope = .ok value) :
    (savePrivateKey secureStorage ethjsUtils aes k .undefined .undefined).setKeys
        = ["PRIVATE_ETH_KEY#" ++ checksummed]
      ∧ (savePrivateKey secureStorage ethjsUtils aes k (.string pw) (.string pw)).setKeys
        = (savePrivateKey secureStorage ethjsUtils aes k .undefined .undefined).setKeys := by
  have hplain := savePrivateKey_plain_run secureStorage ethjsUtils aes k prefixed address
    checksummed hvalid hprefixed haddress hchecksummed
  have hsealed := savePrivateKey_encrypting_run secureStorage ethjsUtils aes k (.string pw)
    prefixed address checksummed envelope value hvalid hprefixed haddress hchecksummed
    (by simp) hencrypt htoString
  simp [SaveRun.setKeys, hplain, hsealed, SaveCall.setKey?, PRIVATE_ETH_KEY_PREFIX]

theorem savePrivateKey_storage_key_independent_of_password_witness :
    (stubEthjsUtils.isValidPrivate (Buffer.fromHex sampleKeyHex) = true
      ∧ stubEthjsUtils.addHexPrefix sampleKeyHex = .ok samplePrefixedKey
      ∧ stubEthjsUtils.privateToAddress samplePrefixedKey = .ok sampleAddress
      ∧ stubEthjsUtils.toChecksumAddress sampleAddress.toStringHex = .ok sampleChecksummed
      ∧ stubAes.encrypt samplePrefixedKey (.string "pw") = .ok sampleEnvelope
      ∧ stubAes.toString sampleEnvelope = .ok sampleEnvelope)
      ∧ (savePrivateKey failingStorage stubEthjsUtils stubAes sampleKeyHex .undefined
          .undefined).setKeys
        = ["PRIVATE_ETH_KEY#" ++ "0x0000000000000000000000000000000000000001"]
      ∧ (savePrivateKey failingStorage stubEthjsUtils stubAes sampleKeyHex (.string "pw")
          (.string "pw")).setKeys
        = (savePrivateKey failingStorage stubEthjsUtils stubAes sampleKeyHex .undefined
          .undefined).setKeys :=
  ⟨⟨by decide, rfl, rfl, rfl, rfl, rfl⟩,
    savePrivateKey_storage_key_independent_of_password failingStorage stubEthjsUtils stubAes
      sampleKeyHex "pw" samplePrefixedKey sampleAddress sampleChecksummed sampleEnvelope
      sampleEnvelope (by decide) rfl rfl rfl rfl rfl⟩

/-- C6: on every input, hence on both the encrypting and the non-encrypting
path, whenever `savePrivateKey` has called `secureStorage.set(key, value)`: if
the promise that call returned rejects with `e`, the promise of `savePrivateKey`
rejects with exactly `e`, and if it resolves with `r`, the promise of
`savePrivateKey` resolves with exactly `r`. -/
theorem savePrivateKey_propagates_storage_outcome {ρ ε κ : Type}
    (secureStorage : SecureStorage ρ ε) (ethjsUtils : EthjsUtils ε) (aes : Aes κ ε)
    (k : String) (pw pwConfirm : MaybeString) (key value : String)
    (hcall : SaveCall.set key value
      ∈ (savePrivateKey secureStorage ethjsUtils aes k pw pwConfirm).calls) :
    (∀ e, secureStorage.set key value = .ok (.rejects e)
        → (savePrivateKey secureStorage ethjsUtils aes k pw pwConfirm).promise
          = .rejected (.foreign e))
      ∧ (∀ r, secureStorage.set key value = .ok (.resolves r)
        → (savePrivateKey secureStorage ethjsUtils aes k pw pwConfirm).promise
          = .resolved r) := by
  constructor
  · intro e he
    rw [savePrivateKey_set_outcome secureStorage ethjsUtils aes k pw pwConfirm key value _
      hcall he]
    rfl
  · intro r hr
    rw [savePrivateKey_set_outcome secureStorage ethjsUtils aes k pw pwConfirm key value _
      hcall hr]
    rfl

theorem savePrivateKey_propagates_storage_outcome_witness :
    (SaveCall.set "PRIVATE_ETH_KEY#0x0000000000000000000000000000000000000001"
          "1000000000000000000000000000000000000000000000000000000000000000x0"
        ∈ (savePrivateKey failingStorage stubEthjsUtils stubAes sampleKeyHex (.string "pw")
            (.string "pw")).calls
      ∧ (savePrivateKey failingStorage stubEthjsUtils stubAes sampleKeyHex (.string "pw")
          (.string "pw")).promise = .rejected (.foreign "storage unavailable"))
      ∧ (SaveCall.set "PRIVATE_ETH_KEY#0x0000000000000000000000000000000000000001"
          "0x0000000000000000000000000000000000000000000000000000000000000001"
        ∈ (savePrivateKey okStorage stubEthjsUtils stubAes sampleKeyHex .undefined
            .undefined).calls
      ∧ (savePrivateKey okStorage stubEthjsUtils stubAes sampleKeyHex .undefined
          .undefined).promise = .resolved 66) :=
  ⟨⟨by decide,
      (savePrivateKey_propagates_storage_outcome failingStorage stubEthjsUtils stubAes
        sampleKeyHex (.string "pw") (.string "pw")
        "PRIVATE_ETH_KEY#0x0000000000000000000000000000000000000001"
        "1000000000000000000000000000000000000000000000000000000000000000x0"
        (by decide)).1 "storage unavailable" rfl⟩,
    ⟨by decide,
      (savePrivateKey_propagates_storage_outcome okStorage stubEthjsUtils stubAes
        sampleKeyHex .undefined .undefined
        "PRIVATE_ETH_KEY#0x0000000000000000000000000000000000000001"
        "0x0000000000000000000000000000000000000000000000000000000000000001"
        (by decide)).2 66 rfl⟩⟩

/-! ### Keys the guard lets through although they are malformed

The guard looks at `Buffer.from(privateKey, 'hex')`, which decodes the leading
hex digits only, while the address is derived from the whole string. With a
library that throws on such a string nothing is stored; with one that does not,
the malformed string is stored. These inputs lie outside the hypotheses of the
theorems above. -/

theorem savePrivateKey_malformed_key_passes_guard :
    stubEthjsUtils.isValidPrivate (Buffer.fromHex malformedKeyHex) = true
      ∧ (savePrivateKey okStorage stubEthjsUtils stubAes malformedKeyHex .undefined
          .undefined).calls = []
      ∧ (savePrivateKey okStorage stubEthjsUtils stubAes malformedKeyHex (.string "a")
          (.string "b")).promise
        = .rejected (.foreign "RangeError: private key length is invalid") := by
  decide

theorem savePrivateKey_null_password_not_stored :
    (savePrivateKey okStorage stubEthjsUtils stubAes sampleKeyHex .null .null).calls
        = [.encrypt samplePrefixedKey .null]
      ∧ (savePrivateKey okStorage stubEthjsUtils stubAes sampleKeyHex .null .null).promise
        = .rejected (.foreign "TypeError: password is not a string") := by
  decide

/-! ## createPrivateKey -/

/-- C7: for every 32-byte buffer `b` that the entropy source delivers without
error and that `isValidPrivateKey` accepts, the promise returned by
`createPrivateKey(crypto, isValidPrivateKey)()` resolves with the hex encoding of
`b` (decoding it gives `b` back): a string of exactly 64 characters, every one of
them in `[0-9a-f]`, that does not start with `0x`. -/
theorem createPrivateKey_resolves_with_hex {ε : Type} (crypto : Crypto ε)
    (isValidPrivateKey : Option Buffer → Except ε Bool) (b : Buffer)
    (hlength : b.bytes.length = 32)
    (herr : (crypto.randomBytes 32).err = none)
    (hprivKey : (crypto.randomBytes 32).privKey = some b)
    (hvalid : isValidPrivateKey (some b) = .ok true) :
    (createPrivateKey crypto isValidPrivateKey).promise = .resolved b.toStringHex
      ∧ Buffer.fromHex b.toStringHex = b
      ∧ b.toStringHex.length = 64
      ∧ (∀ c ∈ b.toStringHex.data, isLowerHexChar c = true)
      ∧ b.toStringHex.data.take 2 ≠ ['0', 'x'] := by
  have hall : ∀ c ∈ b.toStringHex.data, isLowerHexChar c = true :=
    fun c hc => isLowerHexChar_of_mem_flatMap b.bytes c hc
  refine ⟨?_, ?_, ?_, hall, take_two_ne_0x _ hall⟩
  · simp [createPrivateKey, createPrivateKeyCallback, herr, hprivKey, hvalid, PromiseState.res]
  · cases b with
    | mk bytes => simp [Buffer.fromHex, Buffer.toStringHex, decodeHex_flatMap_byteToHex]
  · show (b.bytes.flatMap byteToHex).length = 64
    rw [length_flatMap_byteToHex, hlength]

theorem createPrivateKey_resolves_with_hex_witness :
    (sampleKey.bytes.length = 32
      ∧ ((cryptoDelivering sampleKey).randomBytes 32).err = none
      ∧ ((cryptoDelivering sampleKey).randomBytes 32).privKey = some sampleKey
      ∧ stubIsValidPrivateKey (some sampleKey) = .ok true)
      ∧ (createPrivateKey (cryptoDelivering sampleKey) stubIsValidPrivateKey).promise
        = .resolved "0000000000000000000000000000000000000000000000000000000000000001" :=
  ⟨⟨by decide, rfl, rfl, rfl⟩,
    (createPrivateKey_resolves_with_hex (cryptoDelivering sampleKey) stubIsValidPrivateKey
      sampleKey (by decide) rfl rfl rfl).1.trans (by decide)⟩

/-- C8: for every candidate buffer the entropy source delivers without error,
if `isValidPrivateKey(candidate)` is false the promise returned by
`createPrivateKey(...)()` settles as rejected with an `InvalidPrivateKeyError`,
it is not resolved with the hex string of the candidate or with anything else,
and `crypto.randomBytes` is called exactly once. -/
theorem createPrivateKey_invalid_candidate_rejects {ε : Type} (crypto : Crypto ε)
    (isValidPrivateKey : Option Buffer → Except ε Bool) (candidate : Buffer)
    (herr : (crypto.randomBytes 32).err = none)
    (hprivKey : (crypto.randomBytes 32).privKey = some candidate)
    (hinvalid : isValidPrivateKey (some candidate) = .ok false) :
    (createPrivateKey crypto isValidPrivateKey).promise = .rejected .InvalidPrivateKeyError
      ∧ (∀ value, (createPrivateKey crypto isValidPrivateKey).promise ≠ .resolved value)
      ∧ (createPrivateKey crypto isValidPrivateKey).calls.filter GenCall.isRandomBytes
        = [.randomBytes 32] := by
  have hpromise : (createPrivateKey crypto isValidPrivateKey).promise
      = .rejected .InvalidPrivateKeyError := by
    simp [createPrivateKey, createPrivateKeyCallback, herr, hprivKey, hinvalid,
      PromiseState.res, PromiseState.rej]
  refine ⟨hpromise, ?_, ?_⟩
  · intro value hvalue
    rw [hpromise] at hvalue
    cases hvalue
  · simp [createPrivateKey, createPrivateKeyCallback, herr, hprivKey, hinvalid,
      GenCall.isRandomBytes]

theorem createPrivateKey_invalid_candidate_rejects_witness :
    (((cryptoDelivering zeroKey).randomBytes 32).err = none
      ∧ ((cryptoDelivering zeroKey).randomBytes 32).privKey = some zeroKey
      ∧ stubIsValidPrivateKey (some zeroKey) = .ok false)
      ∧ (createPrivateKey (cryptoDelivering zeroKey) stubIsValidPrivateKey).promise
        = .rejected .InvalidPrivateKeyError
      ∧ (∀ value,
        (createPrivateKey (cryptoDelivering zeroKey) stubIsValidPrivateKey).promise
          ≠ .resolved value)
      ∧ (createPrivateKey (cryptoDelivering zeroKey) stubIsValidPrivateKey).calls.filter
          GenCall.isRandomBytes = [.randomBytes 32] :=
  ⟨⟨rfl, rfl, rfl⟩,
    createPrivateKey_invalid_candidate_rejects (cryptoDelivering zeroKey) stubIsValidPrivateKey
      zeroKey rfl rfl rfl⟩

/-- C9, what the code does: when `crypto.randomBytes` invokes its callback with
an error `e` and no key buffer, the promise is rejected with exactly `e` and is
not resolved, but the callback goes on: the validator is called on the missing
key buffer, and an exception escapes the callback (the one the validator
throws, or the `TypeError` of `privKey.toString` on `undefined`). -/
theorem createPrivateKey_error_branch_falls_through {ε : Type} (e : ε)
    (isValidPrivateKey : Option Buffer → Except ε Bool) :
    (createPrivateKey (cryptoFailing e) isValidPrivateKey).promise = .rejected (.foreign e)
      ∧ GenCall.isValidPrivateKey none
          ∈ (createPrivateKey (cryptoFailing e) isValidPrivateKey).calls
      ∧ (createPrivateKey (cryptoFailing e) isValidPrivateKey).thrown ≠ none
      ∧ (∀ valid, isValidPrivateKey none = .ok valid
          → (createPrivateKey (cryptoFailing e) isValidPrivateKey).thrown = some .TypeError) := by
  cases hv : isValidPrivateKey none with
  | error x =>
    simp [createPrivateKey, createPrivateKeyCallback, cryptoFailing, hv, PromiseState.rej]
  | ok valid =>
    cases valid <;>
      simp [createPrivateKey, createPrivateKeyCallback, cryptoFailing, hv, PromiseState.rej]

/-! ## The profile store -/

/-- C10: on an empty profile store, `setProfile(pseudo, description, image)`
followed by `getProfile()` gives the row with exactly the values that were set
and `id` 1, and that row has the shape `ProfileSchema` declares. -/
theorem getProfile_setProfile_empty (pseudo description image : String) :
    getProfile (setProfile ProfileDb.empty pseudo description image)
        = .ok { pseudo := pseudo, description := description, image := image, id := 1 }
      ∧ ∀ profile,
          getProfile (setProfile ProfileDb.empty pseudo description image) = .ok profile
            → ProfileSchema.hasShape profile.toObject = true := by
  refine ⟨rfl, ?_⟩
  intro profile hprofile
  have hrow : profile
      = { pseudo := pseudo, description := description, image := image, id := 1 } := by
    have h : getProfile (setProfile ProfileDb.empty pseudo description image)
        = .ok { pseudo := pseudo, description := description, image := image, id := 1 } := rfl
    rw [h] at hprofile
    cases hprofile
    rfl
  subst hrow
  rfl

end Panthalassa
